import Mathlib

/-!
Verification development for the disruptor-- handler/distributor layer
(`src/disruptor/handler.hpp`). The distributor and worker code is embedded
from the source; the sequencer primitives it uses (`sequencer.h`, which only
exists as an include) are modelled from the specification where needed.
Payloads are abstracted as `Int`; handler object pointers are abstracted as
`Nat` identities, with `Option Nat` standing for a possibly-null pointer.
-/

namespace Disruptor

/-- Modelled from the spec: `kInitialCursorValue = -1`, the initial cursor
sentinel from `sequencer.h` (absent from `src/`). -/
def kInitialCursorValue : Int := -1

/-- Modelled from the spec: `kDefaultStopSignal`, the reserved sentinel from
`sequencer.h` (absent from `src/`) meaning "stop not requested / drain to
last-claimed on signal". The spec fixes only that the three sentinels are
distinct reserved values; we pick a concrete representative. -/
def kDefaultStopSignal : Int := -2

/-- Modelled from the spec: `kStopImmediatelySignal`, the reserved sentinel
from `sequencer.h` (absent from `src/`) meaning "stop without draining".
Distinct from the other two sentinels. -/
def kStopImmediatelySignal : Int := -3

/-- The inclusive integer interval `[lo, hi]` as an increasing list
(empty when `hi < lo`).  Used to describe the batch of slot indices a
worker iteration processes. -/
def rangeIncl (lo hi : Int) : List Int :=
  (List.range (hi + 1 - lo).toNat).map (fun k => lo + Int.ofNat k)

/-! ## AsyncHandlerWrapper worker loop (`doWork`, handler.hpp lines 226-251)

The worker's observable state per outer loop iteration.  `idx` is the local
consumed index, `stopIdx` the latched local copy of the atomic stop target,
`seqVal` the value last release-stored into the wrapper's consumer
`Sequence`, `processed` the list of slot indices passed to
`handler.process` so far (in call order), `exited` whether the `do ... while`
loop has been left. -/

structure WState where
  idx : Int
  stopIdx : Int
  seqVal : Int
  processed : List Int
  exited : Bool
deriving Repr, DecidableEq

/-- Environment input consumed by one outer iteration of `doWork`:
`poll` is the sequence of (stopSequence, pauseFlag) atomic-read pairs
observed by the inner check loop (lines 236-239), one pair per inner
iteration; `cursor` is the value returned by `barrier->WaitFor`
(line 242; with a timeout it may be smaller than any requested index). -/

structure IterIn where
  poll : List (Int × Bool)
  cursor : Int
deriving Repr, DecidableEq

/-- The inner check loop, handler.hpp lines 236-239:
`do { stopIdx = stopSequence.load(); if (stopIdx != kDefaultStopSignal)
break; } while (pauseFlag.load());`.  Given the observed atomic reads it
returns `some v` with the value of `stopIdx` when the loop exits, or
`none` when the loop is still running after consuming every observation. -/
def pollLoop : List (Int × Bool) → Option Int
  | [] => none
  | (stopObs, pause) :: rest =>
    if stopObs ≠ kDefaultStopSignal then some stopObs
    else if pause then pollLoop rest
    else some stopObs

/-- The tail of an outer `doWork` iteration shared by both paths through
the line-235 guard (handler.hpp lines 242-249): `WaitFor` returns `cursor`,
the `while (idx < cursor)` loop processes slots `idx+1 .. cursor` in
increasing order leaving `idx = max idx cursor`, line 248 stores the new
`idx` into the consumer sequence, and line 249 sets the exit flag once
`stopIdx != kDefaultStopSignal && idx >= stopIdx`.  `stopIdx` is the local
stop value in effect for this iteration. -/
def procPhase (cursor stopIdx : Int) (s : WState) : WState :=
  { idx := max s.idx cursor
    stopIdx := stopIdx
    seqVal := max s.idx cursor
    processed := s.processed ++ rangeIncl (s.idx + 1) cursor
    exited := decide (stopIdx ≠ kDefaultStopSignal ∧ stopIdx ≤ max s.idx cursor) }

/-- One outer iteration of `doWork` (handler.hpp lines 233-250).  Returns
`none` when the worker is parked inside the inner check loop for the whole
observation budget (no state transition happens), otherwise the state after
the iteration.  The inner check loop runs only when the local `stopIdx` is
still `kDefaultStopSignal` (guard at line 235); a newly latched
`kStopImmediatelySignal` breaks out of the outer loop at line 240 before
any slot is processed; every other path falls through to `procPhase`. -/
def doWorkStep (inp : IterIn) (s : WState) : Option WState :=
  if s.exited then some s
  else if s.stopIdx = kDefaultStopSignal then
    match pollLoop inp.poll with
    | none => none
    | some v =>
      if v = kStopImmediatelySignal then some { s with stopIdx := v, exited := true }
      else some (procPhase inp.cursor v s)
  else some (procPhase inp.cursor s.stopIdx s)

/-- The worker state at entry of the outer loop (handler.hpp lines 230-232,
with the default `init_idx = kInitialCursorValue`): the consumer sequence is
set to `init_idx`, `idx = init_idx`, `stopIdx = kDefaultStopSignal`, nothing
processed yet. -/
def initW : WState :=
  { idx := kInitialCursorValue
    stopIdx := kDefaultStopSignal
    seqVal := kInitialCursorValue
    processed := []
    exited := false }

/-- Run the outer `doWork` loop over a list of per-iteration environment
inputs; `none` when the worker got stuck inside an inner check loop. -/
def runWorker : List IterIn → WState → Option WState
  | [], s => some s
  | inp :: rest, s =>
    match doWorkStep inp s with
    | none => none
    | some s2 => runWorker rest s2

/-- Invariant of the worker loop: the processed list is exactly the interval
`[0, idx]` in increasing order, the index never falls below the initial
cursor, a live worker never holds a latched stop-immediately value, and an
exited worker exited either through the stop-immediately break or with its
index at or past a non-default stop target. -/
def WInv (s : WState) : Prop :=
  s.processed = rangeIncl 0 s.idx ∧ (-1 : Int) ≤ s.idx ∧
  (s.exited = false → s.stopIdx ≠ kStopImmediatelySignal) ∧
  (s.exited = true → s.stopIdx = kStopImmediatelySignal ∨
    (s.stopIdx ≠ kDefaultStopSignal ∧ s.stopIdx ≤ s.idx))

/-- One iteration body of `doWork` with the barrier call instrumented
(handler.hpp line 242): the first component is the argument the worker
passes to `barrier->WaitFor` — the source passes `idx` in both the timeout
and the no-timeout overload — and the second is the worker state after the
`while (idx < cursor)` processing loop and the `set_sequence` store
(lines 242-248), where the barrier's reply is modelled by the oracle
`waitFor`. -/
def doWorkIterBody (waitFor : Int → Int) (s : WState) : Int × WState :=
  (s.idx, procPhase (waitFor s.idx) s.stopIdx s)

/-! ## Handler / distributor layer (handler.hpp lines 73-144)

Handler objects are abstracted by `Nat` identities; a possibly-null
`Handler*` is an `Option Nat`.  Each operation returns the new object state
together with the returned pointer. -/

/-- State of a `SingleDistributor` (handler.hpp lines 74-94): the single
`handler_` member, null by default. -/
structure SingleState where
  handler_ : Option Nat
deriving Repr, DecidableEq

/-- `SingleDistributor::addHandler` (line 80): unconditionally installs the
argument and returns it. -/
def SingleDistributor.addHandler (st : SingleState) (rcv : Option Nat) :
    SingleState × Option Nat :=
  ({ handler_ := rcv }, rcv)

/-- `SingleDistributor::removeHandler` (lines 81-85): ignores its argument,
clears `handler_` and returns the previously installed handler. -/
def SingleDistributor.removeHandler (st : SingleState) (rcv : Option Nat) :
    SingleState × Option Nat :=
  ({ handler_ := none }, st.handler_)

/-- State of a `SequentialDistributor` (handler.hpp lines 97-144): the
ordered handler chain.  The constructor at line 103 accepts an arbitrary
vector, so entries are possibly-null pointers. -/
structure SDState where
  chain : List (Option Nat)
deriving Repr, DecidableEq

/-- `SequentialDistributor::addHandler` (lines 105-109): rejects null,
appends the handler unless it is already in the chain, returns it. -/
def SequentialDistributor.addHandler (st : SDState) (rcv : Option Nat) :
    SDState × Option Nat :=
  match rcv with
  | none => (st, none)
  | some h =>
    (if some h ∈ st.chain then st else { chain := st.chain ++ [some h] }, some h)

/-- `SequentialDistributor::removeHandler` (lines 110-119): erases the first
chain entry equal to the argument and returns it (after invoking
`rcv->join()` on it), or returns null when no entry matches. -/
def SequentialDistributor.removeHandler (st : SDState) (rcv : Option Nat) :
    SDState × Option Nat :=
  if rcv ∈ st.chain then ({ chain := st.chain.erase rcv }, rcv)
  else (st, none)

/-- `SequentialDistributor::distribute` (lines 120-124) as its invocation
trace: the list of `(handler, payload)` pairs passed to `process`, in
chain order, skipping null entries, synchronously on the caller. -/
def SequentialDistributor.distributeTrace (st : SDState) (p : Int) :
    List (Nat × Int) :=
  st.chain.filterMap (fun o => o.map (fun h => (h, p)))

/-! ## Spec-modelled sequencer (`sequencer.h` is not under `src/`) -/

/-- Modelled from the spec: slot addressing `index & (N-1)` for the
power-of-two capacity `N` (spec section 3, "Slot array"), written as
`index mod N`, which agrees with the bit mask on the nonnegative indices
the sequencer hands out. -/
def slotIndexN (N : Nat) (i : Int) : Nat := (i % (N : Int)).toNat

/-- Modelled from the spec: the single-producer sequencer state of
`Sequencer<T, N, C, W>` (spec sections 3 and 4.2): a next-to-claim
counter, the published cursor, the slot array (payloads abstracted as
`Int`) and the registered gating sequences (identified by the owning
wrapper's handler id). -/
structure SeqState (N : Nat) where
  next : Int
  cursor : Int
  slots : List Int
  gating : List Nat
deriving Repr, DecidableEq

/-- Modelled from the spec: single-producer `Claim` with `n = 1` (spec
section 4.2): `target = next + n`, stores `next = target`, returns
`target`.  The capacity wait against gating sequences only delays the
return and is invisible in the returned state. -/
def SeqState.Claim {N : Nat} (s : SeqState N) : Int × SeqState N :=
  (s.next + 1, { s with next := s.next + 1 })

/-- Modelled from the spec: single-producer `Publish(i)` release-stores
`cursor = i` (spec section 4.2). -/
def SeqState.Publish {N : Nat} (s : SeqState N) (i : Int) : SeqState N :=
  { s with cursor := i }

/-- Modelled from the spec: the byte copy `memcpy(&sequencer[idx], pMD,
sizeof(DATA_TYPE))` into the slot at `idx & (N-1)` (spec section 4.4,
`operator[]`). -/
def SeqState.writeSlot {N : Nat} (s : SeqState N) (i p : Int) : SeqState N :=
  { s with slots := s.slots.set (slotIndexN N i) p }

/-- Modelled from the spec: `set_gating_sequences(list)` replaces the
gating set (spec section 4.4). -/
def SeqState.setGating {N : Nat} (s : SeqState N) (g : List Nat) : SeqState N :=
  { s with gating := g }

/-! ## ParallelDistributor (handler.hpp lines 147-353) -/

/-- Observable state of an `AsyncHandlerWrapper` (handler.hpp lines
150-252): the wrapped handler, the two atomics, whether `work_thread` is
non-null, and the consumer `Sequence` value. -/
structure Wrapper where
  handler : Nat
  pauseFlag : Bool
  stopSequence : Int
  hasThread : Bool
  seqVal : Int
deriving Repr, DecidableEq

/-- `AsyncHandlerWrapper` constructor (lines 167-174): paused, stop target
`kDefaultStopSignal`, no thread, fresh consumer `Sequence` (initially
`kInitialCursorValue` per the spec). -/
def AsyncHandlerWrapper.new (h : Nat) : Wrapper :=
  { handler := h
    pauseFlag := true
    stopSequence := kDefaultStopSignal
    hasThread := false
    seqVal := kInitialCursorValue }

/-- `AsyncHandlerWrapper::signal` (lines 189-193): stores the stop target
only when a worker thread exists. -/
def AsyncHandlerWrapper.signal (stop : Int) (w : Wrapper) : Wrapper :=
  if w.hasThread then { w with stopSequence := stop } else w

/-- `AsyncHandlerWrapper::signal_pause` (lines 194-198). -/
def AsyncHandlerWrapper.signal_pause (w : Wrapper) : Wrapper :=
  if w.hasThread then { w with pauseFlag := true } else w

/-- `AsyncHandlerWrapper::signal_resume` (lines 199-203). -/
def AsyncHandlerWrapper.signal_resume (w : Wrapper) : Wrapper :=
  if w.hasThread then { w with pauseFlag := false } else w

/-- `AsyncHandlerWrapper::attach` (lines 211-222): stops and joins a
previous worker thread if any, clears the pause flag, resets the stop
target and launches the worker thread. -/
def AsyncHandlerWrapper.attach (w : Wrapper) : Wrapper :=
  { w with pauseFlag := false, stopSequence := kDefaultStopSignal, hasThread := true }

/-- State of a `ParallelDistributor<T, N, C, W>` (handler.hpp lines
346-352): the started flag, the last claimed index, the handler chain
(non-null, `addHandler` rejects null), the internal sequencer and the
owned wrappers. -/
structure PDState (N : Nat) where
  started : Bool
  last_claimed_idx : Int
  chain : List Nat
  data_sequencer : SeqState N
  receivers : List Wrapper
deriving Repr, DecidableEq

/-- `ParallelDistributor::addHandler` (lines 274-278): rejects (returns
null, no state change) once started or for a null argument; otherwise
appends unless already present and returns the argument. -/
def ParallelDistributor.addHandler {N : Nat} (st : PDState N) (rcv : Option Nat) :
    PDState N × Option Nat :=
  if st.started then (st, none)
  else
    match rcv with
    | none => (st, none)
    | some h =>
      (if h ∈ st.chain then st else { st with chain := st.chain ++ [h] }, some h)

/-- `ParallelDistributor::removeHandler` (lines 279-288): returns null once
started; otherwise erases the first matching chain entry and returns it,
or null when absent. -/
def ParallelDistributor.removeHandler {N : Nat} (st : PDState N) (rcv : Option Nat) :
    PDState N × Option Nat :=
  if st.started then (st, none)
  else
    match rcv with
    | none => (st, none)
    | some h =>
      if h ∈ st.chain then ({ st with chain := st.chain.erase h }, some h)
      else (st, none)

/-- `ParallelDistributor::start` (lines 298-312): when not yet started,
creates an `AsyncHandlerWrapper` per chained handler (appending to
`receivers`), registers the fresh wrappers' sequences as gating sequences,
attaches every receiver (launching its worker thread) and sets the started
flag; otherwise does nothing. -/
def ParallelDistributor.start {N : Nat} (st : PDState N) : PDState N :=
  if st.started then st
  else
    let fresh := st.chain.map AsyncHandlerWrapper.new
    let recvs := st.receivers ++ fresh
    { st with
      receivers := recvs.map AsyncHandlerWrapper.attach
      data_sequencer := st.data_sequencer.setGating (fresh.map Wrapper.handler)
      started := true }

/-- `ParallelDistributor::signal` (lines 315-322): when started, translates
`kDefaultStopSignal` into `last_claimed_idx` and forwards the resulting
value to each wrapper's `signal`. -/
def ParallelDistributor.signal {N : Nat} (st : PDState N) (stop_signal : Int) :
    PDState N :=
  if st.started then
    let sig := if stop_signal = kDefaultStopSignal then st.last_claimed_idx else stop_signal
    { st with receivers := st.receivers.map (AsyncHandlerWrapper.signal sig) }
  else st

/-- `ParallelDistributor::distribute` (lines 324-330): drops the payload
when not started; otherwise claims one index, byte-copies the payload into
the slot at that index, publishes it and records it in
`last_claimed_idx`. -/
def ParallelDistributor.distribute {N : Nat} (st : PDState N) (p : Int) :
    PDState N :=
  if st.started = false then st
  else
    let c := st.data_sequencer.Claim
    { st with
      last_claimed_idx := c.1
      data_sequencer := (c.2.writeSlot c.1 p).Publish c.1 }

/-- `ParallelDistributor::signal_pause_all` (lines 332-338). -/
def ParallelDistributor.signal_pause_all {N : Nat} (st : PDState N) : PDState N :=
  if st.started then
    { st with receivers := st.receivers.map AsyncHandlerWrapper.signal_pause }
  else st

/-- `ParallelDistributor::signal_resume_all` (lines 339-345). -/
def ParallelDistributor.signal_resume_all {N : Nat} (st : PDState N) : PDState N :=
  if st.started then
    { st with receivers := st.receivers.map AsyncHandlerWrapper.signal_resume }
  else st

/-! ## CompositeDistributor (handler.hpp lines 355-411) -/

/-- State of a `CompositeDistributor` (extends `SequentialDistributor`):
the inherited chain plus the `derived` list of internally created
handlers. -/
structure CompState where
  chain : List (Option Nat)
  derived : List (Option Nat)
deriving Repr, DecidableEq

/-- `CompositeDistributor::removeHandler` (lines 392-408).  Line 393 reads
`BASE_HANDLER_TYPE* d = this->removeHandler(handler);` — a virtual call
that dispatches back to `CompositeDistributor::removeHandler` itself, so
the function recurses into itself before doing anything else.  The
recursion is modelled with explicit fuel; `none` means the call has not
returned within the given fuel.  The dead code after the call (lines
394-407: erase from `derived`, signal `kStopImmediatelySignal`, join,
delete, return) is translated faithfully. -/
def CompositeDistributor.removeHandler :
    Nat → CompState → Option Nat → Option (CompState × Option Nat)
  | 0, _, _ => none
  | fuel + 1, st, h =>
    match CompositeDistributor.removeHandler fuel st h with
    | none => none
    | some (st1, d) =>
      if d ≠ none ∧ d ∈ st1.derived then
        some ({ st1 with derived := st1.derived.erase d }, none)
      else some (st1, d)

/-! ## Supporting lemmas -/

theorem mem_rangeIncl {lo hi m : Int} : m ∈ rangeIncl lo hi ↔ lo ≤ m ∧ m ≤ hi := by
  unfold rangeIncl
  simp only [List.mem_map, List.mem_range, Int.ofNat_eq_natCast]
  constructor
  · rintro ⟨k, hk, rfl⟩
    omega
  · rintro ⟨h1, h2⟩
    refine ⟨(m - lo).toNat, by omega, by omega⟩

theorem rangeIncl_eq_nil {lo hi : Int} (h : hi < lo) : rangeIncl lo hi = [] := by
  unfold rangeIncl
  have : (hi + 1 - lo).toNat = 0 := by omega
  rw [this]
  rfl

theorem rangeIncl_sorted (lo hi : Int) : List.Sorted (· < ·) (rangeIncl lo hi) := by
  unfold rangeIncl
  refine List.Pairwise.map _ ?_ (List.sorted_lt_range _)
  intro a b hab
  simp only [Int.ofNat_eq_natCast]
  omega

theorem rangeIncl_append {lo m hi : Int} (h1 : lo - 1 ≤ m) (h2 : m ≤ hi) :
    rangeIncl lo m ++ rangeIncl (m + 1) hi = rangeIncl lo hi := by
  unfold rangeIncl
  have hn : (hi + 1 - lo).toNat = (m + 1 - lo).toNat + (hi + 1 - (m + 1)).toNat := by omega
  rw [hn, List.range_add, List.map_append]
  congr 1
  rw [List.map_map]
  refine List.map_congr_left ?_
  intro k hk
  simp only [Function.comp_apply, Int.ofNat_eq_natCast]
  simp only [List.mem_range] at hk
  omega

theorem winv_init : WInv initW := by
  refine ⟨(rangeIncl_eq_nil (by decide)).symm, by decide, fun _ => by decide,
    fun h => by simp [initW] at h⟩

theorem winv_procPhase {s : WState} {cursor v : Int}
    (hproc : s.processed = rangeIncl 0 s.idx) (hidx : (-1 : Int) ≤ s.idx)
    (hv : v ≠ kStopImmediatelySignal) : WInv (procPhase cursor v s) := by
  refine ⟨?_, ?_, fun _ => hv, ?_⟩
  · show s.processed ++ rangeIncl (s.idx + 1) cursor = rangeIncl 0 (max s.idx cursor)
    rw [hproc]
    by_cases hc : cursor ≤ s.idx
    · rw [@rangeIncl_eq_nil (s.idx + 1) cursor (by omega), List.append_nil,
        max_eq_left hc]
    · rw [rangeIncl_append (by omega) (show s.idx ≤ cursor by omega),
        max_eq_right (show s.idx ≤ cursor by omega)]
  · show (-1 : Int) ≤ max s.idx cursor
    omega
  · show decide _ = true → _
    simp only [decide_eq_true_eq]
    exact fun hx => Or.inr hx

theorem winv_step {s s2 : WState} {inp : IterIn} (h : WInv s)
    (hstep : doWorkStep inp s = some s2) : WInv s2 := by
  obtain ⟨hproc, hidx, hlive, hexit⟩ := h
  by_cases hex : s.exited
  · simp only [doWorkStep, hex, if_true, Option.some.injEq] at hstep
    exact hstep ▸ ⟨hproc, hidx, hlive, hexit⟩
  · have hexf : s.exited = false := by simpa using hex
    by_cases hsd : s.stopIdx = kDefaultStopSignal
    · cases hpoll : pollLoop inp.poll with
      | none =>
        simp [doWorkStep, hex, hsd, hpoll] at hstep
      | some v =>
        by_cases himm : v = kStopImmediatelySignal
        · have : some ({ s with stopIdx := v, exited := true } : WState) = some s2 := by
            simpa [doWorkStep, hex, hsd, hpoll, himm] using hstep
          obtain rfl : _ = s2 := Option.some.inj this
          exact ⟨hproc, hidx, by simp, fun _ => Or.inl himm⟩
        · have : some (procPhase inp.cursor v s) = some s2 := by
            simpa [doWorkStep, hex, hsd, hpoll, himm] using hstep
          obtain rfl : _ = s2 := Option.some.inj this
          exact winv_procPhase hproc hidx himm
    · have : some (procPhase inp.cursor s.stopIdx s) = some s2 := by
        simpa [doWorkStep, hex, hsd] using hstep
      obtain rfl : _ = s2 := Option.some.inj this
      exact winv_procPhase hproc hidx (hlive hexf)

theorem winv_run {inputs : List IterIn} {s f : WState} (h : WInv s)
    (hrun : runWorker inputs s = some f) : WInv f := by
  induction inputs generalizing s with
  | nil =>
    simp only [runWorker, Option.some.injEq] at hrun
    exact hrun ▸ h
  | cons inp rest ih =>
    simp only [runWorker] at hrun
    cases hstep : doWorkStep inp s with
    | none => rw [hstep] at hrun; exact absurd hrun (by simp)
    | some s2 =>
      rw [hstep] at hrun
      exact ih (winv_step h hstep) hrun

/-- A non-exited worker step that does not end holding the
stop-immediately sentinel went through the processing phase. -/
theorem doWorkStep_proc_of_ne {s f : WState} {inp : IterIn} (hex : s.exited = false)
    (hstep : doWorkStep inp s = some f) (hni : f.stopIdx ≠ kStopImmediatelySignal) :
    ∃ v, f = procPhase inp.cursor v s := by
  by_cases hsd : s.stopIdx = kDefaultStopSignal
  · cases hpoll : pollLoop inp.poll with
    | none =>
      simp [doWorkStep, hex, hsd, hpoll] at hstep
    | some v =>
      by_cases himm : v = kStopImmediatelySignal
      · have h2 : some ({ s with stopIdx := v, exited := true } : WState) = some f := by
          simpa [doWorkStep, hex, hsd, hpoll, himm] using hstep
        have hf := Option.some.inj h2
        rw [← hf] at hni
        exact absurd himm hni
      · have h2 : some (procPhase inp.cursor v s) = some f := by
          simpa [doWorkStep, hex, hsd, hpoll, himm] using hstep
        exact ⟨v, (Option.some.inj h2).symm⟩
  · have h2 : some (procPhase inp.cursor s.stopIdx s) = some f := by
      simpa [doWorkStep, hex, hsd] using hstep
    exact ⟨s.stopIdx, (Option.some.inj h2).symm⟩

/-! ## Claim theorems -/

/-- Claim C4: if the stop target read by a worker whose local stop value is
still unlatched equals `kStopImmediatelySignal`, the worker exits its loop
on that iteration without draining (no further slot processed, index and
consumer sequence untouched); and whenever a worker run from the initial
state has exited with a latched stop value other than
`kStopImmediatelySignal`, that value was not `kDefaultStopSignal`, the
consumed index has reached at least the stop target, and every message up
to the stop target has been processed before exit. -/
theorem stop_target_semantics :
    (∀ (s : WState) (b : Bool) (rest : List (Int × Bool)) (c : Int),
      s.exited = false → s.stopIdx = kDefaultStopSignal →
      doWorkStep ⟨(kStopImmediatelySignal, b) :: rest, c⟩ s =
        some { s with stopIdx := kStopImmediatelySignal, exited := true }) ∧
    (∀ (inputs : List IterIn) (f : WState),
      runWorker inputs initW = some f → f.exited = true →
      f.stopIdx ≠ kStopImmediatelySignal →
      (f.stopIdx ≠ kDefaultStopSignal ∧ f.stopIdx ≤ f.idx) ∧
      ∀ m : Int, 0 ≤ m → m ≤ f.stopIdx → m ∈ f.processed) := by
  constructor
  · intro s b rest c hex hsd
    have hp : pollLoop ((kStopImmediatelySignal, b) :: rest) = some kStopImmediatelySignal := by
      unfold pollLoop
      rw [if_pos (by decide)]
    simp [doWorkStep, hex, hsd, hp]
  · intro inputs f hrun hex hni
    obtain ⟨hproc, hidx, _, hexit⟩ := winv_run winv_init hrun
    rcases hexit hex with him | ⟨hnd, hle⟩
    · exact absurd him hni
    · refine ⟨⟨hnd, hle⟩, ?_⟩
      intro m hm0 hmle
      rw [hproc, mem_rangeIncl]
      exact ⟨hm0, le_trans hmle hle⟩

/-- Witness for C4: from the initial worker state, reading the
stop-immediately sentinel exits at once with nothing processed; and a run
that latches stop target 5 and sees cursor 7 exits having processed
message 3 (indeed all of 0..7). -/
theorem stop_target_semantics_witness :
    doWorkStep ⟨[(kStopImmediatelySignal, true)], 9⟩ initW =
      some { initW with stopIdx := kStopImmediatelySignal, exited := true } ∧
    (3 : Int) ∈ (procPhase 7 5 initW).processed := by
  constructor
  · exact stop_target_semantics.1 initW true [] 9 rfl rfl
  · exact (stop_target_semantics.2 [⟨[(5, false)], 7⟩] (procPhase 7 5 initW)
      (by decide) (by decide) (by decide)).2 3 (by decide) (by decide)

/-- Claim C9: while the pause flag stays set and the stop target stays
`kDefaultStopSignal`, the worker remains inside the inner check loop and
makes no state transition (no index advance, no `handler.process` call);
`signal_resume_all` on a started distributor clears every live wrapper's
pause flag; and no message is lost — after any iteration that is not a
stop-immediately exit, every message index up to the cursor returned by
the barrier (in particular every message distributed while the worker was
paused) is in the processed list. -/
theorem pause_semantics :
    (∀ obs : List (Int × Bool),
      (∀ o ∈ obs, o.1 = kDefaultStopSignal ∧ o.2 = true) → pollLoop obs = none) ∧
    (∀ (s : WState) (inp : IterIn), s.exited = false →
      s.stopIdx = kDefaultStopSignal → pollLoop inp.poll = none →
      doWorkStep inp s = none) ∧
    (∀ (N : Nat) (st : PDState N), st.started = true →
      ∀ w ∈ (ParallelDistributor.signal_resume_all st).receivers,
        w.hasThread = true → w.pauseFlag = false) ∧
    (∀ (inputs : List IterIn) (inp : IterIn) (s f : WState),
      runWorker inputs initW = some s → s.exited = false →
      doWorkStep inp s = some f → f.stopIdx ≠ kStopImmediatelySignal →
      ∀ m : Int, 0 ≤ m → m ≤ inp.cursor → m ∈ f.processed) := by
  refine ⟨?_, ?_, ?_, ?_⟩
  · intro obs hobs
    induction obs with
    | nil => rfl
    | cons o rest ih =>
      obtain ⟨a, b⟩ := o
      obtain ⟨h1, h2⟩ := hobs (a, b) (List.mem_cons_self _ _)
      simp only at h1 h2
      subst h1
      subst h2
      show pollLoop ((kDefaultStopSignal, true) :: rest) = none
      unfold pollLoop
      rw [if_neg (by simp), if_pos rfl]
      exact ih fun o ho => hobs o (List.mem_cons_of_mem _ ho)
  · intro s inp hex hsd hpoll
    simp [doWorkStep, hex, hsd, hpoll]
  · intro N st hs w hw ht
    simp only [ParallelDistributor.signal_resume_all, hs, if_true, List.mem_map] at hw
    obtain ⟨w0, hw0, rfl⟩ := hw
    unfold AsyncHandlerWrapper.signal_resume at ht ⊢
    by_cases h0 : w0.hasThread
    · simp [h0]
    · rw [if_neg h0] at ht
      exact absurd ht h0
  · intro inputs inp s f hrun hex hstep hni m hm0 hmc
    obtain ⟨v, rfl⟩ := doWorkStep_proc_of_ne hex hstep hni
    have hv : v ≠ kStopImmediatelySignal := hni
    obtain ⟨hproc, hidx, _, _⟩ := winv_run winv_init hrun
    have hinvf := @winv_procPhase s inp.cursor v hproc hidx hv
    rw [hinvf.1, mem_rangeIncl]
    refine ⟨hm0, ?_⟩
    show m ≤ max s.idx inp.cursor
    exact le_trans hmc (le_max_right _ _)

/-- Witness for C9: a paused, unstopped observation parks the check loop;
a full pause makes the worker step return no transition; resume_all clears
the pause flag of a live wrapper; and message 1, distributed while paused
(cursor 2 on resume), is processed. -/
theorem pause_semantics_witness :
    pollLoop [(kDefaultStopSignal, true)] = none ∧
    doWorkStep ⟨[(kDefaultStopSignal, true)], 4⟩ initW = none ∧
    (⟨7, false, kDefaultStopSignal, true, -1⟩ : Wrapper).pauseFlag = false ∧
    (1 : Int) ∈ (procPhase 2 kDefaultStopSignal initW).processed := by
  refine ⟨?_, ?_, ?_, ?_⟩
  · exact pause_semantics.1 [(kDefaultStopSignal, true)] (by decide)
  · exact pause_semantics.2.1 initW ⟨[(kDefaultStopSignal, true)], 4⟩ rfl rfl (by decide)
  · exact pause_semantics.2.2.1 2
      (⟨true, -1, [7], ⟨-1, -1, [0, 0], [7]⟩, [⟨7, true, kDefaultStopSignal, true, -1⟩]⟩ :
        PDState 2) rfl ⟨7, false, kDefaultStopSignal, true, -1⟩ (by decide) rfl
  · exact pause_semantics.2.2.2 [] ⟨[(kDefaultStopSignal, false)], 2⟩ initW
      (procPhase 2 kDefaultStopSignal initW) rfl rfl (by decide) (by decide) 1
      (by decide) (by decide)

/-- Claim C1, counterexample: the worker does not obtain the cursor by
calling `Barrier.WaitFor(idx+1, ...)` — at the loop entry state (consumed
index `-1`) the argument passed to `WaitFor` (line 242) is `-1`, not `0`. -/
theorem waitFor_argument_counterexample :
    ¬ (doWorkIterBody (fun n => n) initW).1 = initW.idx + 1 := by
  decide

/-- Claim C1 (amended): in every `AsyncHandlerWrapper` worker-loop
iteration with current consumed index `idx`, the worker obtains the
visible cursor by calling `Barrier.WaitFor(idx, timeout_interval)` (or
`WaitFor(idx)` without timeout when the timeout is disabled) — i.e. with
`idx`, not `idx+1` — then invokes `handler.process` on each slot `i` for
`i = idx+1` up to and including the returned cursor in increasing order,
setting `idx = i` after each, and then stores the final `idx` into its
consumer `Sequence`. -/
theorem doWork_iteration_processing (wf : Int → Int) (s : WState) :
    (doWorkIterBody wf s).1 = s.idx ∧
    (doWorkIterBody wf s).2.idx = max s.idx (wf s.idx) ∧
    (doWorkIterBody wf s).2.seqVal = max s.idx (wf s.idx) ∧
    (doWorkIterBody wf s).2.processed = s.processed ++ rangeIncl (s.idx + 1) (wf s.idx) ∧
    List.Sorted (· < ·) (rangeIncl (s.idx + 1) (wf s.idx)) ∧
    (∀ i : Int, i ∈ rangeIncl (s.idx + 1) (wf s.idx) ↔ s.idx + 1 ≤ i ∧ i ≤ wf s.idx) := by
  exact ⟨rfl, rfl, rfl, rfl, rangeIncl_sorted _ _, fun i => mem_rangeIncl⟩

/-- Claim C2: on a started `ParallelDistributor` whose wrappers have live
worker threads, `signal(kDefaultStopSignal)` stores `last_claimed_idx` as
every wrapper's stop target, and `signal` with any other value stores that
value literally in every wrapper's stop target. -/
theorem signal_stop_targets {N : Nat} (st : PDState N) (stop : Int)
    (hs : st.started = true) (ht : ∀ w ∈ st.receivers, w.hasThread = true) :
    (stop = kDefaultStopSignal →
      ∀ w ∈ (ParallelDistributor.signal st stop).receivers,
        w.stopSequence = st.last_claimed_idx) ∧
    (stop ≠ kDefaultStopSignal →
      ∀ w ∈ (ParallelDistributor.signal st stop).receivers,
        w.stopSequence = stop) := by
  constructor
  · intro hd w hw
    simp only [ParallelDistributor.signal, hs, if_true, hd, List.mem_map] at hw
    obtain ⟨w0, hw0, rfl⟩ := hw
    simp [AsyncHandlerWrapper.signal, ht w0 hw0]
  · intro hd w hw
    simp only [ParallelDistributor.signal, hs, if_true, hd, if_false, List.mem_map] at hw
    obtain ⟨w0, hw0, rfl⟩ := hw
    simp [AsyncHandlerWrapper.signal, ht w0 hw0]

/-- Witness for C2 at a concrete started distributor with one live
wrapper: the default signal stores the last claimed index 41, and the
literal signal 9 is stored as is. -/
theorem signal_stop_targets_witness :
    (⟨7, false, (41 : Int), true, -1⟩ : Wrapper).stopSequence = (41 : Int) ∧
    (⟨7, false, (9 : Int), true, -1⟩ : Wrapper).stopSequence = (9 : Int) :=
  ⟨(signal_stop_targets
      (⟨true, 41, [7], ⟨-1, -1, [0, 0, 0, 0], [7]⟩, [⟨7, false, kDefaultStopSignal, true, -1⟩]⟩ :
        PDState 4) kDefaultStopSignal rfl (by decide)).1 rfl _ (by decide),
   (signal_stop_targets
      (⟨true, 41, [7], ⟨-1, -1, [0, 0, 0, 0], [7]⟩, [⟨7, false, kDefaultStopSignal, true, -1⟩]⟩ :
        PDState 4) 9 rfl (by decide)).2 (by decide) _ (by decide)⟩

/-- Claim C3: `distribute(p)` on a `ParallelDistributor` that has not been
started returns with no state change (the payload is dropped); on a
started one it claims exactly one index from the internal sequencer
(advancing `next` by one and recording the claimed index in
`last_claimed_idx`), byte-copies the payload into the slot at that index
and publishes that index as the new cursor. -/
theorem distribute_semantics {N : Nat} (st : PDState N) (p : Int) :
    (st.started = false → ParallelDistributor.distribute st p = st) ∧
    (st.started = true →
      ParallelDistributor.distribute st p =
        { st with
          last_claimed_idx := st.data_sequencer.next + 1
          data_sequencer :=
            { st.data_sequencer with
              next := st.data_sequencer.next + 1
              cursor := st.data_sequencer.next + 1
              slots := st.data_sequencer.slots.set
                (slotIndexN N (st.data_sequencer.next + 1)) p } }) := by
  constructor
  · intro h
    simp [ParallelDistributor.distribute, h]
  · intro h
    simp [ParallelDistributor.distribute, h, SeqState.Claim, SeqState.writeSlot,
      SeqState.Publish]

/-- Witness for C3: a concrete non-started distributor is unchanged, and a
concrete started distributor with `next = -1` claims index 0, writes the
payload 55 into slot 0 and publishes cursor 0. -/
theorem distribute_semantics_witness :
    ParallelDistributor.distribute
      (⟨false, -1, [3], ⟨-1, -1, [0, 0], []⟩, []⟩ : PDState 2) 55 =
      (⟨false, -1, [3], ⟨-1, -1, [0, 0], []⟩, []⟩ : PDState 2) ∧
    ParallelDistributor.distribute
      (⟨true, -1, [3], ⟨-1, -1, [0, 0], [3]⟩, [⟨3, false, -2, true, -1⟩]⟩ : PDState 2) 55 =
      (⟨true, 0, [3], ⟨0, 0, [55, 0], [3]⟩, [⟨3, false, -2, true, -1⟩]⟩ : PDState 2) :=
  ⟨(distribute_semantics
      (⟨false, -1, [3], ⟨-1, -1, [0, 0], []⟩, []⟩ : PDState 2) 55).1 rfl,
   by
    have h := (distribute_semantics
      (⟨true, -1, [3], ⟨-1, -1, [0, 0], [3]⟩, [⟨3, false, -2, true, -1⟩]⟩ : PDState 2) 55).2 rfl
    rw [h]
    decide⟩

/-- Claim C5 (code bug): `CompositeDistributor::removeHandler` never
terminates.  Line 393 calls `this->removeHandler(handler)`, a virtual call
that dispatches back to the same override, so for every fuel bound, every
composite state and every argument the call is still recursing. -/
theorem compositeRemoveHandler_nonterminating :
    ∀ (fuel : Nat) (st : CompState) (h : Option Nat),
      CompositeDistributor.removeHandler fuel st h = none := by
  intro fuel
  induction fuel with
  | zero => intro st h; rfl
  | succ n ih =>
    intro st h
    simp [CompositeDistributor.removeHandler, ih st h]

/-- Claim C6: `addHandler` on a `ParallelDistributor` called after start
returns null and leaves the state (in particular the chain) unchanged;
called before start with a non-null handler not already in the chain it
appends that handler and returns it. -/
theorem addHandler_after_start {N : Nat} (st : PDState N) (rcv : Option Nat) :
    (st.started = true → ParallelDistributor.addHandler st rcv = (st, none)) ∧
    (∀ h : Nat, st.started = false → rcv = some h → h ∉ st.chain →
      ParallelDistributor.addHandler st rcv =
        ({ st with chain := st.chain ++ [h] }, some h)) := by
  constructor
  · intro hs
    simp [ParallelDistributor.addHandler, hs]
  · intro h hs hr hmem
    subst hr
    simp [ParallelDistributor.addHandler, hs, hmem]

/-- Witness for C6: a started distributor rejects handler 5; the same
distributor before start appends handler 5 and returns it. -/
theorem addHandler_after_start_witness :
    ParallelDistributor.addHandler
      (⟨true, -1, [3], ⟨-1, -1, [0, 0], []⟩, []⟩ : PDState 2) (some 5) =
      ((⟨true, -1, [3], ⟨-1, -1, [0, 0], []⟩, []⟩ : PDState 2), none) ∧
    ParallelDistributor.addHandler
      (⟨false, -1, [3], ⟨-1, -1, [0, 0], []⟩, []⟩ : PDState 2) (some 5) =
      ((⟨false, -1, [3, 5], ⟨-1, -1, [0, 0], []⟩, []⟩ : PDState 2), some 5) :=
  ⟨(addHandler_after_start
      (⟨true, -1, [3], ⟨-1, -1, [0, 0], []⟩, []⟩ : PDState 2) (some 5)).1 rfl,
   by
    have h := (addHandler_after_start
      (⟨false, -1, [3], ⟨-1, -1, [0, 0], []⟩, []⟩ : PDState 2) (some 5)).2 5 rfl rfl
      (by decide)
    rw [h]
    rfl⟩

/-- Claim C7, counterexample: `SingleDistributor::removeHandler` does not
return null for an unregistered handler — with handler 1 installed,
`removeHandler(2)` returns handler 1 (and clears the slot). -/
theorem removeHandler_not_registered_counterexample :
    ¬ (SingleDistributor.removeHandler ⟨some 1⟩ (some 2)).2 = none := by
  decide

/-- Claim C7 (amended): `SequentialDistributor` and `ParallelDistributor`
`removeHandler` return null when the handler is not currently registered,
`ParallelDistributor::removeHandler` returns null whenever called after
start, and otherwise both remove the handler and return it;
`SingleDistributor::removeHandler` however ignores its argument: it always
clears and returns the currently installed handler (null if none), even
when the argument is not the registered handler. -/
theorem removeHandler_semantics (sst : SingleState) (sq : SDState) {N : Nat}
    (pd : PDState N) (rcv : Option Nat) (h : Nat) :
    (SingleDistributor.removeHandler sst rcv = (⟨none⟩, sst.handler_)) ∧
    (rcv ∉ sq.chain → SequentialDistributor.removeHandler sq rcv = (sq, none)) ∧
    (rcv ∈ sq.chain →
      SequentialDistributor.removeHandler sq rcv = (⟨sq.chain.erase rcv⟩, rcv)) ∧
    (pd.started = true → ParallelDistributor.removeHandler pd rcv = (pd, none)) ∧
    (pd.started = false → h ∉ pd.chain →
      ParallelDistributor.removeHandler pd (some h) = (pd, none)) ∧
    (pd.started = false → h ∈ pd.chain →
      ParallelDistributor.removeHandler pd (some h) =
        ({ pd with chain := pd.chain.erase h }, some h)) := by
  refine ⟨rfl, ?_, ?_, ?_, ?_, ?_⟩
  · intro hm
    simp [SequentialDistributor.removeHandler, hm]
  · intro hm
    simp [SequentialDistributor.removeHandler, hm]
  · intro hs
    simp [ParallelDistributor.removeHandler, hs]
  · intro hs hm
    simp [ParallelDistributor.removeHandler, hs, hm]
  · intro hs hm
    simp [ParallelDistributor.removeHandler, hs, hm]

/-- Witness for C7 (amended) at concrete states: the single distributor
returns its installed handler 4 for the foreign argument 9; the sequential
distributor returns null for an absent handler and removes a present one;
the parallel distributor rejects after start, returns null for an absent
handler before start, and removes a present one before start. -/
theorem removeHandler_semantics_witness :
    SingleDistributor.removeHandler ⟨some 4⟩ (some 9) = (⟨none⟩, some 4) ∧
    SequentialDistributor.removeHandler ⟨[some 6]⟩ (some 9) = (⟨[some 6]⟩, none) ∧
    SequentialDistributor.removeHandler ⟨[some 6, some 9]⟩ (some 9) =
      (⟨[some 6]⟩, some 9) ∧
    ParallelDistributor.removeHandler
      (⟨true, -1, [6], ⟨-1, -1, [0, 0], []⟩, []⟩ : PDState 2) (some 6) =
      ((⟨true, -1, [6], ⟨-1, -1, [0, 0], []⟩, []⟩ : PDState 2), none) ∧
    ParallelDistributor.removeHandler
      (⟨false, -1, [6], ⟨-1, -1, [0, 0], []⟩, []⟩ : PDState 2) (some 9) =
      ((⟨false, -1, [6], ⟨-1, -1, [0, 0], []⟩, []⟩ : PDState 2), none) ∧
    ParallelDistributor.removeHandler
      (⟨false, -1, [6, 9], ⟨-1, -1, [0, 0], []⟩, []⟩ : PDState 2) (some 9) =
      ((⟨false, -1, [6], ⟨-1, -1, [0, 0], []⟩, []⟩ : PDState 2), some 9) := by
  refine ⟨?_, ?_, ?_, ?_, ?_, ?_⟩
  · exact (removeHandler_semantics ⟨some 4⟩ ⟨[some 6]⟩
      (⟨true, -1, [6], ⟨-1, -1, [0, 0], []⟩, []⟩ : PDState 2) (some 9) 9).1
  · exact (removeHandler_semantics ⟨some 4⟩ ⟨[some 6]⟩
      (⟨true, -1, [6], ⟨-1, -1, [0, 0], []⟩, []⟩ : PDState 2) (some 9) 9).2.1 (by decide)
  · have h := (removeHandler_semantics ⟨some 4⟩ ⟨[some 6, some 9]⟩
      (⟨true, -1, [6], ⟨-1, -1, [0, 0], []⟩, []⟩ : PDState 2) (some 9) 9).2.2.1 (by decide)
    rw [h]
    rfl
  · exact (removeHandler_semantics ⟨some 4⟩ ⟨[some 6]⟩
      (⟨true, -1, [6], ⟨-1, -1, [0, 0], []⟩, []⟩ : PDState 2) (some 9) 9).2.2.2.1 rfl
  · exact (removeHandler_semantics ⟨some 4⟩ ⟨[some 6]⟩
      (⟨false, -1, [6], ⟨-1, -1, [0, 0], []⟩, []⟩ : PDState 2) (some 9) 9).2.2.2.2.1 rfl
      (by decide)
  · have h := (removeHandler_semantics ⟨some 4⟩ ⟨[some 6]⟩
      (⟨false, -1, [6, 9], ⟨-1, -1, [0, 0], []⟩, []⟩ : PDState 2) (some 9) 9).2.2.2.2.2 rfl
      (by decide)
    rw [h]
    rfl

/-- Claim C8: `SequentialDistributor::addHandler` is idempotent — adding a
handler already in the chain leaves the chain unchanged, and it keeps the
chain deduplicated — and for every payload `distribute` invokes `process`
on each registered handler exactly once, in registration order,
synchronously on the calling thread (the invocation trace is the chain in
order, each entry carrying the payload, and each handler of a deduplicated
chain appears exactly once). -/
theorem sequential_addHandler_distribute (st : SDState) (h : Nat) (p : Int) :
    (some h ∈ st.chain → SequentialDistributor.addHandler st (some h) = (st, some h)) ∧
    (st.chain.Nodup → ((SequentialDistributor.addHandler st (some h)).1).chain.Nodup) ∧
    ((SequentialDistributor.distributeTrace st p).map Prod.fst = st.chain.filterMap id) ∧
    (∀ x ∈ SequentialDistributor.distributeTrace st p, x.2 = p) ∧
    (st.chain.Nodup → some h ∈ st.chain →
      ((SequentialDistributor.distributeTrace st p).map Prod.fst).count h = 1) := by
  have htrace : (SequentialDistributor.distributeTrace st p).map Prod.fst =
      st.chain.filterMap id := by
    unfold SequentialDistributor.distributeTrace
    rw [List.map_filterMap]
    congr 1
    funext o
    cases o <;> rfl
  refine ⟨?_, ?_, htrace, ?_, ?_⟩
  · intro hm
    simp [SequentialDistributor.addHandler, hm]
  · intro hnd
    unfold SequentialDistributor.addHandler
    by_cases hm : some h ∈ st.chain
    · simpa [hm] using hnd
    · simp only [hm, if_false]
      refine List.Nodup.append hnd (List.nodup_singleton _) ?_
      intro a ha hb
      simp only [List.mem_singleton] at hb
      subst hb
      exact hm ha
  · intro x hx
    unfold SequentialDistributor.distributeTrace at hx
    rw [List.mem_filterMap] at hx
    obtain ⟨o, _, he⟩ := hx
    cases o with
    | none => exact absurd he (by simp)
    | some a =>
      have hxe : (a, p) = x := by simpa using he
      subst hxe
      rfl
  · intro hnd hm
    rw [htrace]
    have hnodup : (st.chain.filterMap id).Nodup := by
      refine List.Nodup.filterMap ?_ hnd
      intro a a' b hb hb'
      cases a <;> cases a' <;> simp_all
    have hmem2 : h ∈ st.chain.filterMap id := by
      rw [List.mem_filterMap]
      exact ⟨some h, hm, rfl⟩
    exact List.count_eq_one_of_mem hnodup hmem2

/-- Witness for C8: on the chain `[2, 5]`, re-adding handler 5 leaves the
state unchanged, and the distribute trace of payload 77 invokes handler 5
exactly once. -/
theorem sequential_addHandler_distribute_witness :
    SequentialDistributor.addHandler ⟨[some 2, some 5]⟩ (some 5) =
      (⟨[some 2, some 5]⟩, some 5) ∧
    ((SequentialDistributor.distributeTrace ⟨[some 2, some 5]⟩ 77).map Prod.fst).count 5 = 1 :=
  ⟨(sequential_addHandler_distribute ⟨[some 2, some 5]⟩ 5 77).1 (by decide),
   (sequential_addHandler_distribute ⟨[some 2, some 5]⟩ 5 77).2.2.2.2 (by decide) (by decide)⟩

/-- Claim C10: `start()` on an already started `ParallelDistributor` is a
no-op: no wrapper is created, no thread launched, no gating sequence
re-registered — the whole state is unchanged. -/
theorem start_idempotent {N : Nat} (st : PDState N) (hs : st.started = true) :
    ParallelDistributor.start st = st := by
  simp [ParallelDistributor.start, hs]

/-- Witness for C10 at a concrete started distributor. -/
theorem start_idempotent_witness :
    ParallelDistributor.start
      (⟨true, 4, [3], ⟨4, 4, [9, 9], [3]⟩, [⟨3, false, -2, true, 2⟩]⟩ : PDState 2) =
      (⟨true, 4, [3], ⟨4, 4, [9, 9], [3]⟩, [⟨3, false, -2, true, 2⟩]⟩ : PDState 2) :=
  start_idempotent
    (⟨true, 4, [3], ⟨4, 4, [9, 9], [3]⟩, [⟨3, false, -2, true, 2⟩]⟩ : PDState 2) rfl

end Disruptor
